import Mathlib

/-!
Verification of the HR Talent Lens prototype (`app.py`).

The source is a single-file Streamlit app:
  - `parse_request_with_openai` (lines 12-26): remote filter extraction,
    wrapped whole in try/except that returns `None` on any failure;
  - `parse_request_local` (lines 29-53): deterministic keyword parser;
  - `score_employees` (lines 58-118): per-row weighted scoring followed by
    `pd.DataFrame(results).sort_values(by="score", ascending=False)`;
  - the button handler (lines 135-152): tier selection with Python `or`,
    `top_n` resolution by truthiness, and `scored_df.head(top_n)` display.

Numbers read from the roster CSV (performance score, utilization, ...) are
modelled as rationals (`ℚ`); Python's `/` on them is exact division, which
`ℚ` reproduces.  Dates are abstracted by a parameter
`dt : String → Option ℤ` standing for `pd.to_datetime`: `some d` when the
string parses (to an ordinal on which `≤` is date order), `none` when
`pd.to_datetime` raises.  Python `str.lower` is modelled by
`String.toLower` and substring containment (`in`) by `List.isInfixOf` on
the character lists.
-/

/-- One roster row (one record of the uploaded CSV).  Fields are exactly the
columns `score_employees` reads: lines 65-113 of `app.py`. -/
structure Employee where
  employee_id : String
  name : String
  role : String
  skills : String
  location : String
  past_projects : String
  performance_score : ℚ
  billable_utilization_pct : ℚ
  annual_cost : ℚ
  experience_years : ℚ
  availability_start_date : String
  stake_tier : String
deriving DecidableEq, Repr

/-- The structured filter record produced by `parse_request_local`
(lines 30-38): list fields default to `[]`, scalar fields to `none`. -/
structure FilterRecord where
  role : List String
  skills : List String
  location : Option String
  budget : Option ℚ
  availability_before : Option String
  past_projects : List String
  top_n : Option ℤ
deriving DecidableEq, Repr

/-- One row of the output of `score_employees`: the dict built at
lines 104-116 of `app.py`. -/
structure ScoredRecord where
  employee_id : String
  name : String
  role : String
  annual_cost : ℚ
  location : String
  performance_score : ℚ
  experience_years : ℚ
  availability_start_date : String
  stake_tier : String
  score : ℚ
  reasons : String
deriving DecidableEq, Repr

/-- Whether `needle` occurs as a contiguous segment of `hay`, by scanning
every suffix of `hay` for `needle` as a prefix. -/
def containsSeg (needle : List Char) : List Char → Bool
  | [] => needle.isEmpty
  | c :: t => needle.isPrefixOf (c :: t) || containsSeg needle t

/-- Python substring containment `needle in hay` (contiguous substring;
the empty string is contained in every string). -/
def pyIn (needle hay : String) : Bool :=
  containsSeg needle.data hay.data

/-- Python `str.lower()`: lower-case the string character by character. -/
def lowerStr (s : String) : String :=
  String.mk (s.data.map Char.toLower)

/-- Role rule, lines 64-67: `filters.get("role") and row["role"] in
filters["role"]` — truthiness of the list (non-empty) and exact,
case-sensitive membership of the row's role string. -/
def roleDelta (f : FilterRecord) (row : Employee) : ℚ :=
  if f.role ≠ [] ∧ row.role ∈ f.role then 20 else 0

/-- Reason text appended by the role rule (line 67). -/
def roleReasons (f : FilterRecord) (row : Employee) : List String :=
  if f.role ≠ [] ∧ row.role ∈ f.role then
    ["Role '" ++ row.role ++ "' fits project requirement"]
  else []

/-- Line 71: `[s for s in filters["skills"] if s.lower() in row["skills"].lower()]`. -/
def skillsHit (f : FilterRecord) (row : Employee) : List String :=
  f.skills.filter (fun s => pyIn (lowerStr s) (lowerStr row.skills))

/-- Skills rule, lines 70-74: guarded by truthiness of `filters["skills"]`
and of the matched list; contributes `15 * len(matched_skills)`. -/
def skillsDelta (f : FilterRecord) (row : Employee) : ℚ :=
  if f.skills ≠ [] ∧ skillsHit f row ≠ [] then 15 * ((skillsHit f row).length : ℚ) else 0

/-- Reason text appended by the skills rule (line 74). -/
def skillsReasons (f : FilterRecord) (row : Employee) : List String :=
  if f.skills ≠ [] ∧ skillsHit f row ≠ [] then
    ["Employee has required skills: " ++ String.intercalate ", " (skillsHit f row)]
  else []

/-- Location rule condition, line 77: `filters.get("location") and
filters["location"].lower() in row["location"].lower()` — the string is
truthy iff non-empty. -/
def locHit (f : FilterRecord) (row : Employee) : Bool :=
  match f.location with
  | some loc => !(loc == "") && pyIn (lowerStr loc) (lowerStr row.location)
  | none => false

/-- Location rule contribution, line 78. -/
def locDelta (f : FilterRecord) (row : Employee) : ℚ :=
  if locHit f row then 10 else 0

/-- Reason text appended by the location rule (line 79). -/
def locReasons (f : FilterRecord) (row : Employee) : List String :=
  if locHit f row then ["Located in/near " ++ f.location.getD ""] else []

/-- Line 83: matched past-project keywords. -/
def projHit (f : FilterRecord) (row : Employee) : List String :=
  f.past_projects.filter (fun p => pyIn (lowerStr p) (lowerStr row.past_projects))

/-- Past-projects rule, lines 82-86: `10 * len(matched_projects)`. -/
def projDelta (f : FilterRecord) (row : Employee) : ℚ :=
  if f.past_projects ≠ [] ∧ projHit f row ≠ [] then 10 * ((projHit f row).length : ℚ) else 0

/-- Reason text appended by the past-projects rule (line 86). -/
def projReasons (f : FilterRecord) (row : Employee) : List String :=
  if f.past_projects ≠ [] ∧ projHit f row ≠ [] then
    ["Experience in similar projects: " ++ String.intercalate ", " (projHit f row)]
  else []

/-- Unconditional performance and utilization contribution, lines 89-90:
`score += row["performance_score"] * 2; score += row["billable_utilization_pct"] / 10`. -/
def perfDelta (row : Employee) : ℚ :=
  row.performance_score * 2 + row.billable_utilization_pct / 10

/-- Unconditionally appended reason, line 91.  Python's `str()` rendering of
the two numbers is modelled by `toString` on `ℚ`. -/
def perfReason (row : Employee) : String :=
  "High performance score (" ++ toString row.performance_score ++
    ") and utilization " ++ toString row.billable_utilization_pct ++ "%"

/-- Availability rule, lines 93-102.  The guard is truthiness of
`filters.get("availability_before")` (non-`None`, non-empty string); the
try-block parses the filter date then the row date, and any
`pd.to_datetime` failure (modelled by `dt` returning `none`) lands in
`except: pass`, contributing nothing.  The appended reason renders the
parsed project date (`project_date.date()`), modelled by `toString` of the
ordinal. -/
def availRes (dt : String → Option ℤ) (f : FilterRecord) (row : Employee) : ℚ × List String :=
  match f.availability_before with
  | none => (0, [])
  | some ab =>
    if ab = "" then (0, [])
    else
      match dt ab with
      | none => (0, [])
      | some pdd =>
        match dt row.availability_start_date with
        | none => (0, [])
        | some ad =>
          if ad ≤ pdd then (10, ["Available before required date " ++ toString pdd])
          else (0, [])

/-- Final accumulated score of one row (lines 61-102).  The source
accumulates with `score +=` under conditions that never read the
accumulator, so the final value is the ordered sum of the per-rule
contributions. -/
def rowScore (dt : String → Option ℤ) (f : FilterRecord) (row : Employee) : ℚ :=
  roleDelta f row + skillsDelta f row + locDelta f row + projDelta f row +
    perfDelta row + (availRes dt f row).1

/-- Final reason list of one row (lines 62-102), in the fixed source order:
role, skills, location, past projects, the unconditional
performance/utilization line, availability. -/
def rowReasons (dt : String → Option ℤ) (f : FilterRecord) (row : Employee) : List String :=
  roleReasons f row ++ skillsReasons f row ++ locReasons f row ++ projReasons f row ++
    [perfReason row] ++ (availRes dt f row).2

/-- The dict appended for one row, lines 104-116: the copied row fields,
the accumulated score, and
`" | ".join(reasons) if reasons else "General fit based on performance and utilization"`. -/
def scoreRow (dt : String → Option ℤ) (f : FilterRecord) (row : Employee) : ScoredRecord :=
  { employee_id := row.employee_id
    name := row.name
    role := row.role
    annual_cost := row.annual_cost
    location := row.location
    performance_score := row.performance_score
    experience_years := row.experience_years
    availability_start_date := row.availability_start_date
    stake_tier := row.stake_tier
    score := rowScore dt f row
    reasons :=
      if rowReasons dt f row = [] then "General fit based on performance and utilization"
      else String.intercalate " | " (rowReasons dt f row) }

/-- Comparison used for ordering scored rows: by the `score` field. -/
def scoreLE (a b : ScoredRecord) : Prop := a.score ≤ b.score

instance : DecidableRel scoreLE := fun a b => inferInstanceAs (Decidable (a.score ≤ b.score))

instance : IsTotal ScoredRecord scoreLE := ⟨fun a b => le_total a.score b.score⟩

instance : IsTrans ScoredRecord scoreLE := ⟨fun _ _ _ h1 h2 => le_trans h1 h2⟩

/-- Model of `pd.DataFrame(results).sort_values(by="score", ascending=False)`
(line 118).  Pandas computes an ascending argsort of the column with numpy
quicksort and, for `ascending=False`, reverses the resulting indexer
(`nargsort`).  For the array sizes settled concretely here numpy's
quicksort degenerates to its insertion-sort base case, which is stable, so
the composite is exactly a stable ascending sort followed by reversal. -/
def sortByScoreDesc (l : List ScoredRecord) : List ScoredRecord :=
  (List.insertionSort scoreLE l).reverse

/-- `score_employees` (lines 58-118).  The per-row loop maps `scoreRow`
over the roster; the final line builds `pd.DataFrame(results)` and sorts it
by the `score` column.  When the roster is empty, `results == []` and
`pd.DataFrame([])` has no columns at all, so `sort_values(by="score")`
raises `KeyError: 'score'` — modelled by `Except.error ()`.  For a
non-empty `results` every dict carries the `score` key and the sort
succeeds. -/
def score_employees (dt : String → Option ℤ) (df : List Employee) (filters : FilterRecord) :
    Except Unit (List ScoredRecord) :=
  let results := df.map (scoreRow dt filters)
  if results.isEmpty then Except.error () else Except.ok (sortByScoreDesc results)

/-- A JSON value, as `json.loads` can return one: the remote tier is not
restricted to well-formed filter dicts. -/
inductive Json where
  | null : Json
  | bool (b : Bool) : Json
  | num (q : ℚ) : Json
  | str (s : String) : Json
  | arr (l : List Json) : Json
  | obj (l : List (String × Json)) : Json

/-- Python truthiness of a JSON value: `None`, `False`, `0`, `""`, `[]` and
`{}` are falsy, everything else truthy. -/
def Json.truthy : Json → Bool
  | .null => false
  | .bool b => b
  | .num q => decide (q ≠ 0)
  | .str s => decide (s ≠ "")
  | .arr l => !l.isEmpty
  | .obj l => !l.isEmpty

/-- `parse_request_with_openai` (lines 12-26).  The whole body sits inside
`try: ... except Exception: return None`, so the function returns the
parsed JSON on success and `None` on any failure; `remote` abstracts the
combined outcome of the chat-completion call and `json.loads`: `.ok j`
when the service answered and the content parsed as JSON value `j`,
`.error ()` for every failure mode (network error, timeout, missing
credential, non-JSON content). -/
def parse_request_with_openai (remote : Except Unit Json) : Option Json :=
  match remote with
  | .ok j => some j
  | .error _ => none

/-- `parse_request_local` (lines 29-53): lower-case the prompt, then apply
the fixed keyword rules.  `role` and `past_projects` start `[]` and only
their single rule appends; `top_n` is set by the `"top 5"` branch, else by
the `"top 10"` branch (if/elif); `skills`, `budget` and
`availability_before` are never touched. -/
def parse_request_local (prompt : String) : FilterRecord :=
  let text := lowerStr prompt
  { role := if pyIn "devops" text then ["DevOps Engineer"] else []
    skills := []
    location := if pyIn "calgary" text then some "Calgary" else none
    budget := none
    availability_before := none
    past_projects := if pyIn "iot" text then ["IoT"] else []
    top_n :=
      if pyIn "top 5" text then some 5
      else if pyIn "top 10" text then some 10
      else none }

/-- Line 136: `filters = parse_request_with_openai(user_prompt) or
parse_request_local(user_prompt)`.  Python `or` yields the left operand
when it is truthy (`None` is falsy, as is `{}`), otherwise the right one;
the result is either the whole tier-1 JSON value or the whole tier-2
record. -/
def filtersAtCallSite (remote : Except Unit Json) (prompt : String) : Json ⊕ FilterRecord :=
  match parse_request_with_openai remote with
  | some j => if j.truthy then Sum.inl j else Sum.inr (parse_request_local prompt)
  | none => Sum.inr (parse_request_local prompt)

/-- Line 139: `top_n = filters.get("top_n") if filters.get("top_n") else
top_n_default` — the filter value wins iff it is truthy (non-`None` and
non-zero). -/
def resolveTopN (f : FilterRecord) (top_n_default : ℤ) : ℤ :=
  match f.top_n with
  | some n => if n ≠ 0 then n else top_n_default
  | none => top_n_default

/-- `DataFrame.head(n)` (line 145): the first `n` rows for `n ≥ 0`; for
negative `n`, all rows but the last `|n|`. -/
def pdHead (l : List ScoredRecord) (n : ℤ) : List ScoredRecord :=
  if 0 ≤ n then l.take n.toNat else l.take (l.length - (-n).toNat)

/-- Lines 141-149 of the button handler: score the roster, resolve `top_n`
and display `scored_df.head(top_n)` (`reset_index` and the column
selection are presentational and do not change the rows). -/
def recommendTable (dt : String → Option ℤ) (df : List Employee) (f : FilterRecord)
    (top_n_default : ℤ) : Except Unit (List ScoredRecord) :=
  (score_employees dt df f).map (fun scored => pdHead scored (resolveTopN f top_n_default))

/-- The all-default filter record (the local parser's output on a prompt
matching no keyword rule). -/
def emptyFilters : FilterRecord :=
  { role := [], skills := [], location := none, budget := none,
    availability_before := none, past_projects := [], top_n := none }

/-- A date parser that fails on every string (used to instantiate theorems
at concrete inputs). -/
def dt0 : String → Option ℤ := fun _ => none

/-- A minimal concrete roster row. -/
def mkEmp (nm rl : String) (perf util : ℚ) : Employee :=
  { employee_id := nm, name := nm, role := rl, skills := "", location := "",
    past_projects := "", performance_score := perf, billable_utilization_pct := util,
    annual_cost := 0, experience_years := 0, availability_start_date := "",
    stake_tier := "" }

/-- Row "A": performance 1, utilization 0, hence score 2 under `emptyFilters`. -/
def eA : Employee := mkEmp "A" "Dev" 1 0

/-- Row "B": performance 2, utilization 0, hence score 4 under `emptyFilters`. -/
def eB : Employee := mkEmp "B" "Dev" 2 0

/-- Row "C": same score as row "A" (tie) but a different name. -/
def eC : Employee := mkEmp "C" "Dev" 1 0

/-- A row with a negative performance score, as a CSV may well contain. -/
def eNeg : Employee := mkEmp "N" "Dev" (-1) 0

/-! ### Helper lemmas about the descending sort -/

lemma sortByScoreDesc_perm (l : List ScoredRecord) : (sortByScoreDesc l).Perm l :=
  (List.reverse_perm _).trans (List.perm_insertionSort _ _)

lemma sortByScoreDesc_sorted (l : List ScoredRecord) :
    (sortByScoreDesc l).Pairwise (fun a b => b.score ≤ a.score) := by
  have h : (List.insertionSort scoreLE l).Pairwise scoreLE :=
    List.sorted_insertionSort scoreLE l
  exact List.pairwise_reverse.mpr h

lemma filter_score_orderedInsert (k : ℚ) (a : ScoredRecord) (l : List ScoredRecord) :
    (List.orderedInsert scoreLE a l).filter (fun x => decide (x.score = k)) =
      if a.score = k then a :: l.filter (fun x => decide (x.score = k))
      else l.filter (fun x => decide (x.score = k)) := by
  induction l with
  | nil => by_cases h : a.score = k <;> simp [List.orderedInsert, h]
  | cons b t ih =>
    simp only [List.orderedInsert]
    by_cases hab : scoreLE a b
    · rw [if_pos hab]
      by_cases h : a.score = k <;> simp [List.filter_cons, h]
    · rw [if_neg hab]
      have hlt : b.score < a.score := lt_of_not_le hab
      by_cases h : a.score = k
      · have hb : ¬ b.score = k := by rw [← h]; exact ne_of_lt hlt
        simp [List.filter_cons, hb, ih, h]
      · simp [List.filter_cons, ih, h]
  
lemma filter_score_insertionSort (k : ℚ) (l : List ScoredRecord) :
    (List.insertionSort scoreLE l).filter (fun x => decide (x.score = k)) =
      l.filter (fun x => decide (x.score = k)) := by
  induction l with
  | nil => rfl
  | cons a t ih =>
    simp only [List.insertionSort, filter_score_orderedInsert, ih, List.filter_cons]
    by_cases h : a.score = k <;> simp [h]

lemma sortByScoreDesc_filter (k : ℚ) (l : List ScoredRecord) :
    (sortByScoreDesc l).filter (fun x => decide (x.score = k)) =
      (l.filter (fun x => decide (x.score = k))).reverse := by
  simp [sortByScoreDesc, List.filter_reverse, filter_score_insertionSort]

lemma score_employees_ok (dt : String → Option ℤ) (f : FilterRecord) (df : List Employee)
    (h : df ≠ []) :
    score_employees dt df f = Except.ok (sortByScoreDesc (df.map (scoreRow dt f))) := by
  have hne : (df.map (scoreRow dt f)).isEmpty = false := by
    cases df with
    | nil => exact absurd rfl h
    | cons a t => rfl
  simp [score_employees, hne]

/-! ### Helper lemmas about row scores -/

lemma roleDelta_nonneg (f : FilterRecord) (row : Employee) : 0 ≤ roleDelta f row := by
  unfold roleDelta; split <;> norm_num

lemma skillsDelta_nonneg (f : FilterRecord) (row : Employee) : 0 ≤ skillsDelta f row := by
  unfold skillsDelta; split
  · positivity
  · norm_num

lemma locDelta_nonneg (f : FilterRecord) (row : Employee) : 0 ≤ locDelta f row := by
  unfold locDelta; split <;> norm_num

lemma projDelta_nonneg (f : FilterRecord) (row : Employee) : 0 ≤ projDelta f row := by
  unfold projDelta; split
  · positivity
  · norm_num

lemma availRes_fst_nonneg (dt : String → Option ℤ) (f : FilterRecord) (row : Employee) :
    0 ≤ (availRes dt f row).1 := by
  unfold availRes
  repeat' split
  all_goals norm_num

lemma rowScore_nonneg (dt : String → Option ℤ) (f : FilterRecord) (row : Employee)
    (h1 : 0 ≤ row.performance_score) (h2 : 0 ≤ row.billable_utilization_pct) :
    0 ≤ rowScore dt f row := by
  have hu : 0 ≤ row.billable_utilization_pct / 10 := by positivity
  have ha := availRes_fst_nonneg dt f row
  have hr := roleDelta_nonneg f row
  have hs := skillsDelta_nonneg f row
  have hl := locDelta_nonneg f row
  have hp := projDelta_nonneg f row
  unfold rowScore perfDelta
  linarith

/-! ### Helper lemmas about reason strings -/

lemma intercalate_go_length_le (s : String) :
    ∀ (as : List String) (acc : String), acc.length ≤ (String.intercalate.go acc s as).length := by
  intro as
  induction as with
  | nil => intro acc; simp [String.intercalate.go]
  | cons a t ih =>
    intro acc
    have h1 : acc.length ≤ (acc ++ s ++ a).length := by
      simp only [String.length_append]
      omega
    have h2 := ih (acc ++ s ++ a)
    calc acc.length ≤ (acc ++ s ++ a).length := h1
      _ ≤ (String.intercalate.go (acc ++ s ++ a) s t).length := h2
      _ = (String.intercalate.go acc s (a :: t)).length := rfl

lemma intercalate_go_length_mem (s : String) :
    ∀ (as : List String) (acc x : String), x ∈ as →
      x.length ≤ (String.intercalate.go acc s as).length := by
  intro as
  induction as with
  | nil => intro acc x hx; cases hx
  | cons a t ih =>
    intro acc x hx
    rcases List.mem_cons.mp hx with rfl | hx
    · have h1 : x.length ≤ (acc ++ s ++ x).length := by
        simp only [String.length_append]
        omega
      have h2 := intercalate_go_length_le s t (acc ++ s ++ x)
      calc x.length ≤ (acc ++ s ++ x).length := h1
        _ ≤ (String.intercalate.go (acc ++ s ++ x) s t).length := h2
        _ = (String.intercalate.go acc s (x :: t)).length := rfl
    · have h2 := ih (acc ++ s ++ a) x hx
      calc x.length ≤ (String.intercalate.go (acc ++ s ++ a) s t).length := h2
        _ = (String.intercalate.go acc s (a :: t)).length := rfl

lemma length_le_intercalate_of_mem (s : String) (l : List String) (x : String) (hx : x ∈ l) :
    x.length ≤ (String.intercalate s l).length := by
  cases l with
  | nil => cases hx
  | cons a t =>
    rcases List.mem_cons.mp hx with rfl | hx
    · exact intercalate_go_length_le s t x
    · exact intercalate_go_length_mem s t a x hx

lemma intercalate_ne_empty_of_mem (s : String) (l : List String) (x : String)
    (hx : x ∈ l) (hne : 0 < x.length) : String.intercalate s l ≠ "" := by
  intro h
  have hle := length_le_intercalate_of_mem s l x hx
  rw [h] at hle
  have : ("" : String).length = 0 := rfl
  omega

lemma perfReason_length_pos (row : Employee) : 0 < (perfReason row).length := by
  have : ("High performance score (" : String).length = 24 := rfl
  unfold perfReason
  simp only [String.length_append]
  omega

lemma perfReason_mem_rowReasons (dt : String → Option ℤ) (f : FilterRecord) (row : Employee) :
    perfReason row ∈ rowReasons dt f row := by
  unfold rowReasons
  simp

lemma rowReasons_ne_nil (dt : String → Option ℤ) (f : FilterRecord) (row : Employee) :
    rowReasons dt f row ≠ [] := by
  intro h
  exact absurd (h ▸ perfReason_mem_rowReasons dt f row) (List.not_mem_nil _)

/-! ### Concrete evaluations used by counterexamples and witnesses -/

lemma scoreRow_empty_score (row : Employee) :
    (scoreRow dt0 emptyFilters row).score =
      row.performance_score * 2 + row.billable_utilization_pct / 10 := by
  simp [scoreRow, rowScore, roleDelta, skillsDelta, skillsHit, locDelta, locHit,
    projDelta, projHit, perfDelta, availRes, emptyFilters]

lemma scoreA : (scoreRow dt0 emptyFilters eA).score = 2 := by
  rw [scoreRow_empty_score]; norm_num [eA, mkEmp]

lemma scoreB : (scoreRow dt0 emptyFilters eB).score = 4 := by
  rw [scoreRow_empty_score]; norm_num [eB, mkEmp]

lemma scoreC : (scoreRow dt0 emptyFilters eC).score = 2 := by
  rw [scoreRow_empty_score]; norm_num [eC, mkEmp]

lemma scoreNeg : (scoreRow dt0 emptyFilters eNeg).score = -2 := by
  rw [scoreRow_empty_score]; norm_num [eNeg, mkEmp]

/-! ### The claims -/

/-- C1, counterexample.  On the two-row roster `[eA, eB]` (scores 2 and 4)
with no filters, `score_employees` returns the rows in descending score
order `[B, A]`, which is not the input order `[A, B]`: the second conjunct
says the output differs from the row-wise map in input order. -/
theorem c1_score_not_input_order :
    score_employees dt0 [eA, eB] emptyFilters =
      Except.ok [scoreRow dt0 emptyFilters eB, scoreRow dt0 emptyFilters eA] ∧
    [scoreRow dt0 emptyFilters eB, scoreRow dt0 emptyFilters eA] ≠
      [eA, eB].map (scoreRow dt0 emptyFilters) := by
  constructor
  · have hle : scoreLE (scoreRow dt0 emptyFilters eA) (scoreRow dt0 emptyFilters eB) := by
      unfold scoreLE; rw [scoreA, scoreB]; norm_num
    simp [score_employees, sortByScoreDesc, List.insertionSort, List.orderedInsert, hle]
  · intro h
    simp only [List.map] at h
    injection h with h1 h2
    have hname := congrArg ScoredRecord.name h1
    have hBA : ("B" : String) = "A" := hname
    exact absurd hBA (by decide)

/-- C1, amended.  For every non-empty roster and every filter record,
`score_employees` returns one scored record per input row — its output is a
permutation of the row-wise scored records — but sorted by score descending
(the sort happens inside `score_employees`, line 118), not in input order. -/
theorem c1_one_record_per_row_sorted (dt : String → Option ℤ) (f : FilterRecord)
    (df : List Employee) (h : df ≠ []) :
    ∃ l, score_employees dt df f = Except.ok l ∧
      l.Perm (df.map (scoreRow dt f)) ∧
      l.Pairwise (fun a b => b.score ≤ a.score) := by
  refine ⟨sortByScoreDesc (df.map (scoreRow dt f)), score_employees_ok dt f df h,
    sortByScoreDesc_perm _, sortByScoreDesc_sorted _⟩

/-- C1, witness: the amended theorem instantiated on the concrete two-row
roster. -/
theorem c1_one_record_per_row_sorted_witness :
    ([eA, eB] : List Employee) ≠ [] ∧
    ∃ l, score_employees dt0 [eA, eB] emptyFilters = Except.ok l ∧
      l.Perm ([eA, eB].map (scoreRow dt0 emptyFilters)) ∧
      l.Pairwise (fun a b => b.score ≤ a.score) :=
  ⟨by simp, c1_one_record_per_row_sorted dt0 emptyFilters [eA, eB] (by simp)⟩

/-- C2, counterexample.  On the empty roster, `pd.DataFrame([])` has no
`score` column and `sort_values` raises (so nothing is returned, not zero
records); and a row with a negative `performance_score` receives the
negative score `-2`. -/
theorem c2_empty_raises_and_negative_score :
    score_employees dt0 ([] : List Employee) emptyFilters = Except.error () ∧
    score_employees dt0 [eNeg] emptyFilters = Except.ok [scoreRow dt0 emptyFilters eNeg] ∧
    (scoreRow dt0 emptyFilters eNeg).score < 0 := by
  refine ⟨rfl, rfl, ?_⟩
  rw [scoreNeg]; norm_num

/-- C2, amended.  For every non-empty roster whose rows all have
non-negative `performance_score` and `billable_utilization_pct`,
`score_employees` returns exactly `len(roster)` records, each with score
at least 0. -/
theorem c2_length_and_nonneg (dt : String → Option ℤ) (f : FilterRecord)
    (df : List Employee) (h1 : df ≠ [])
    (h2 : ∀ r ∈ df, 0 ≤ r.performance_score ∧ 0 ≤ r.billable_utilization_pct) :
    ∃ l, score_employees dt df f = Except.ok l ∧ l.length = df.length ∧
      ∀ s ∈ l, 0 ≤ s.score := by
  refine ⟨sortByScoreDesc (df.map (scoreRow dt f)), score_employees_ok dt f df h1, ?_, ?_⟩
  · rw [(sortByScoreDesc_perm _).length_eq, List.length_map]
  · intro s hs
    rw [(sortByScoreDesc_perm _).mem_iff] at hs
    obtain ⟨row, hrow, rfl⟩ := List.mem_map.mp hs
    have hr := h2 row hrow
    exact rowScore_nonneg dt f row hr.1 hr.2

/-- C2, witness: the amended theorem instantiated on the concrete one-row
roster `[eA]`. -/
theorem c2_length_and_nonneg_witness :
    (([eA] : List Employee) ≠ [] ∧
      ∀ r ∈ ([eA] : List Employee), 0 ≤ r.performance_score ∧ 0 ≤ r.billable_utilization_pct) ∧
    ∃ l, score_employees dt0 [eA] emptyFilters = Except.ok l ∧ l.length = [eA].length ∧
      ∀ s ∈ l, 0 ≤ s.score := by
  have hrows : ∀ r ∈ ([eA] : List Employee),
      0 ≤ r.performance_score ∧ 0 ≤ r.billable_utilization_pct := by
    intro r hr
    rcases List.mem_singleton.mp hr with rfl
    constructor <;> norm_num [eA, mkEmp]
  exact ⟨⟨by simp, hrows⟩, c2_length_and_nonneg dt0 emptyFilters [eA] (by simp) hrows⟩

/-- C3, counterexample.  Rows `eA` and `eC` tie at score 2; on input order
`[eA, eC]` the output is `[C, A]` — the tied rows come out in reversed
input order (pandas argsorts ascending and reverses the indexer for
`ascending=False`), so relative input order is not preserved. -/
theorem c3_ties_reversed :
    (scoreRow dt0 emptyFilters eA).score = (scoreRow dt0 emptyFilters eC).score ∧
    score_employees dt0 [eA, eC] emptyFilters =
      Except.ok [scoreRow dt0 emptyFilters eC, scoreRow dt0 emptyFilters eA] ∧
    (scoreRow dt0 emptyFilters eC).name = "C" ∧
    (scoreRow dt0 emptyFilters eA).name = "A" := by
  refine ⟨by rw [scoreA, scoreC], ?_, rfl, rfl⟩
  have hle : scoreLE (scoreRow dt0 emptyFilters eA) (scoreRow dt0 emptyFilters eC) := by
    unfold scoreLE; rw [scoreA, scoreC]
  simp [score_employees, sortByScoreDesc, List.insertionSort, List.orderedInsert, hle]

/-- C3, amended.  For every non-empty roster the output of
`score_employees` is sorted non-increasing by score; when all scores are
distinct it is strictly descending; and rows of any fixed score appear in
the reverse of their input order (the ascending stable sort is reversed),
not in input order. -/
theorem c3_sorted_desc (dt : String → Option ℤ) (f : FilterRecord)
    (df : List Employee) (h : df ≠ []) :
    ∃ l, score_employees dt df f = Except.ok l ∧
      l.Pairwise (fun a b => b.score ≤ a.score) ∧
      (((df.map (scoreRow dt f)).map ScoredRecord.score).Nodup →
        l.Pairwise (fun a b => b.score < a.score)) ∧
      ∀ k : ℚ, l.filter (fun x => decide (x.score = k)) =
        ((df.map (scoreRow dt f)).filter (fun x => decide (x.score = k))).reverse := by
  refine ⟨sortByScoreDesc (df.map (scoreRow dt f)), score_employees_ok dt f df h,
    sortByScoreDesc_sorted _, ?_, fun k => sortByScoreDesc_filter k _⟩
  intro hnd
  have hperm : (sortByScoreDesc (df.map (scoreRow dt f))).Perm (df.map (scoreRow dt f)) :=
    sortByScoreDesc_perm _
  have hnd' : ((sortByScoreDesc (df.map (scoreRow dt f))).map ScoredRecord.score).Nodup :=
    ((hperm.map ScoredRecord.score).nodup_iff).mpr hnd
  have hne : (sortByScoreDesc (df.map (scoreRow dt f))).Pairwise
      (fun a b => a.score ≠ b.score) :=
    List.pairwise_map.mp hnd'
  have hle := sortByScoreDesc_sorted (df.map (scoreRow dt f))
  exact (hle.and hne).imp (fun hp => lt_of_le_of_ne hp.1 hp.2.symm)

/-- C3, witness: the amended theorem instantiated on the concrete tied
roster `[eA, eC]`. -/
theorem c3_sorted_desc_witness :
    ([eA, eC] : List Employee) ≠ [] ∧
    ∃ l, score_employees dt0 [eA, eC] emptyFilters = Except.ok l ∧
      l.Pairwise (fun a b => b.score ≤ a.score) ∧
      ((([eA, eC].map (scoreRow dt0 emptyFilters)).map ScoredRecord.score).Nodup →
        l.Pairwise (fun a b => b.score < a.score)) ∧
      ∀ k : ℚ, l.filter (fun x => decide (x.score = k)) =
        (([eA, eC].map (scoreRow dt0 emptyFilters)).filter
          (fun x => decide (x.score = k))).reverse :=
  ⟨by simp, c3_sorted_desc dt0 emptyFilters [eA, eC] (by simp)⟩

/-- A filter record whose availability date does not parse. -/
def fAv : FilterRecord := { emptyFilters with availability_before := some "not-a-date" }

/-- C4, confirmed.  When the remote call fails (any failure mode is the
`.error` outcome caught by the try/except), the call site gets exactly the
local parse — nothing propagates; and a prompt whose lower-cased text
contains both "devops" and "top 5" locally parses to
`role = ["DevOps Engineer"]` and `top_n = 5`. -/
theorem c4_remote_failure_falls_back (prompt : String) :
    filtersAtCallSite (Except.error ()) prompt = Sum.inr (parse_request_local prompt) ∧
    (pyIn "devops" (lowerStr prompt) = true → pyIn "top 5" (lowerStr prompt) = true →
      (parse_request_local prompt).role = ["DevOps Engineer"] ∧
      (parse_request_local prompt).top_n = some 5) := by
  refine ⟨rfl, fun h1 h2 => ⟨?_, ?_⟩⟩ <;>
    simp [parse_request_local, h1, h2]

/-- C4, witness: instantiated on the prompt "Need DevOps, top 5". -/
theorem c4_remote_failure_falls_back_witness :
    (pyIn "devops" (lowerStr "Need DevOps, top 5") = true ∧
      pyIn "top 5" (lowerStr "Need DevOps, top 5") = true) ∧
    (parse_request_local "Need DevOps, top 5").role = ["DevOps Engineer"] ∧
    (parse_request_local "Need DevOps, top 5").top_n = some 5 :=
  ⟨⟨by decide, by decide⟩,
    (c4_remote_failure_falls_back "Need DevOps, top 5").2 (by decide) (by decide)⟩

/-- C5, confirmed.  If the filter's availability date or the row's
availability date fails to parse (`dt` returns `none`), the row's scored
record — score and reasons alike — equals the one computed with
`availability_before` unset; and scoring still returns one record per
roster row (nothing is aborted). -/
theorem c5_unparseable_date_skips_only_bonus (dt : String → Option ℤ) (f : FilterRecord)
    (row : Employee) (ab : String) (hab : f.availability_before = some ab)
    (h : dt ab = none ∨ dt row.availability_start_date = none) :
    scoreRow dt f row = scoreRow dt { f with availability_before := none } row ∧
    ∀ df : List Employee, df ≠ [] →
      ∃ l, score_employees dt df f = Except.ok l ∧ l.length = df.length := by
  constructor
  · have hav : availRes dt f row = (0, []) := by
      unfold availRes
      rw [hab]
      by_cases he : ab = ""
      · simp [he]
      · rcases h with h | h
        · simp [he, h]
        · cases hd : dt ab with
          | none => simp [he, hd]
          | some pdd => simp [he, hd, h]
    have hav' : availRes dt { f with availability_before := none } row = (0, []) := rfl
    simp only [scoreRow, rowScore, rowReasons, hav, hav']
    rfl
  · intro df hdf
    exact ⟨sortByScoreDesc (df.map (scoreRow dt f)), score_employees_ok dt f df hdf,
      by rw [(sortByScoreDesc_perm _).length_eq, List.length_map]⟩

/-- C5, witness: instantiated on the unparseable filter date
"not-a-date" (the all-failing parser `dt0`) and row `eA`. -/
theorem c5_unparseable_date_skips_only_bonus_witness :
    (fAv.availability_before = some "not-a-date" ∧
      (dt0 "not-a-date" = none ∨ dt0 eA.availability_start_date = none)) ∧
    scoreRow dt0 fAv eA = scoreRow dt0 { fAv with availability_before := none } eA ∧
    ∀ df : List Employee, df ≠ [] →
      ∃ l, score_employees dt0 df fAv = Except.ok l ∧ l.length = df.length :=
  ⟨⟨rfl, Or.inl rfl⟩,
    c5_unparseable_date_skips_only_bonus dt0 fAv eA "not-a-date" rfl (Or.inl rfl)⟩

/-- A filter record carrying `top_n = 0`: present and non-null, yet falsy. -/
def f6 : FilterRecord := { emptyFilters with top_n := some 0 }

/-- A filter record carrying `top_n = 5`. -/
def f5 : FilterRecord := { emptyFilters with top_n := some 5 }

/-- C6, counterexample.  With `top_n = 0` — present and non-null — the
truthiness test at line 139 discards it: the resolved count is the caller
default 10, and the one-row roster displays its row (1 row, not at most 0
rows). -/
theorem c6_topn_zero_loses :
    f6.top_n = some 0 ∧
    resolveTopN f6 10 = 10 ∧
    recommendTable dt0 [eA] f6 10 = Except.ok [scoreRow dt0 f6 eA] := by
  exact ⟨rfl, rfl, rfl⟩

/-- C6, amended.  A present, non-null and non-zero `top_n` takes precedence
over the caller default, and (when it is non-negative) the displayed table
has at most `top_n` rows; in particular `top_n = 5` beats a default of 10. -/
theorem c6_topn_truthy_precedence (dt : String → Option ℤ) (df : List Employee)
    (f : FilterRecord) (d n : ℤ) (h : f.top_n = some n) (hn : n ≠ 0) :
    resolveTopN f d = n ∧
    (0 ≤ n → ∀ l, recommendTable dt df f d = Except.ok l → l.length ≤ n.toNat) := by
  have hres : resolveTopN f d = n := by simp [resolveTopN, h, hn]
  refine ⟨hres, fun hpos l hl => ?_⟩
  unfold recommendTable at hl
  cases hok : score_employees dt df f with
  | error e => rw [hok] at hl; exact absurd hl (by simp [Except.map])
  | ok s =>
    rw [hok] at hl
    simp only [Except.map] at hl
    injection hl with hl
    rw [← hl, hres]
    simp only [pdHead, if_pos hpos, List.length_take]
    omega

/-- C6, witness: `top_n = 5` with caller default 10 on the one-row roster
`[eA]` — at most 5 rows are displayed. -/
theorem c6_topn_truthy_precedence_witness :
    (f5.top_n = some 5 ∧ (5 : ℤ) ≠ 0) ∧
    resolveTopN f5 10 = 5 ∧
    (0 ≤ (5 : ℤ) → ∀ l, recommendTable dt0 [eA] f5 10 = Except.ok l →
      l.length ≤ (5 : ℤ).toNat) :=
  ⟨⟨rfl, by decide⟩, c6_topn_truthy_precedence dt0 [eA] f5 10 5 rfl (by decide)⟩

/-- C7, counterexample.  `json.loads("{}")` yields the empty object — a
valid, non-null parse — yet Python `or` treats it as falsy, so the call
site replaces it with the tier-2 local parse instead of using it. -/
theorem c7_empty_object_not_used :
    parse_request_with_openai (Except.ok (Json.obj [])) = some (Json.obj []) ∧
    Json.obj [] ≠ Json.null ∧
    filtersAtCallSite (Except.ok (Json.obj [])) "p" = Sum.inr (parse_request_local "p") :=
  ⟨rfl, fun h => Json.noConfusion h, rfl⟩

/-- C7, amended.  The call site uses the tier-1 result exactly when it is a
truthy parse (non-null and non-falsy: not `{}`, `[]`, `0`, `""`, `false`),
otherwise the whole tier-2 record; the result is always one tier's whole
output, never a field-by-field merge. -/
theorem c7_whole_record_selection (r : Except Unit Json) (prompt : String) :
    (∀ j, parse_request_with_openai r = some j → j.truthy = true →
      filtersAtCallSite r prompt = Sum.inl j) ∧
    (∀ j, parse_request_with_openai r = some j → j.truthy = false →
      filtersAtCallSite r prompt = Sum.inr (parse_request_local prompt)) ∧
    (parse_request_with_openai r = none →
      filtersAtCallSite r prompt = Sum.inr (parse_request_local prompt)) ∧
    ((∃ j, parse_request_with_openai r = some j ∧ filtersAtCallSite r prompt = Sum.inl j) ∨
      filtersAtCallSite r prompt = Sum.inr (parse_request_local prompt)) := by
  cases r with
  | error e =>
    refine ⟨?_, ?_, fun _ => rfl, Or.inr rfl⟩
    · intro j hj ht; cases hj
    · intro j hj ht; cases hj
  | ok j =>
    refine ⟨?_, ?_, ?_, ?_⟩
    · intro j' hj ht
      injection hj with hj
      subst hj
      simp [filtersAtCallSite, parse_request_with_openai, ht]
    · intro j' hj ht
      injection hj with hj
      subst hj
      simp [filtersAtCallSite, parse_request_with_openai, ht]
    · intro hj; cases hj
    · by_cases ht : j.truthy
      · exact Or.inl ⟨j, rfl, by simp [filtersAtCallSite, parse_request_with_openai, ht]⟩
      · exact Or.inr (by simp [filtersAtCallSite, parse_request_with_openai, ht])

/-- C7, witness: a truthy tier-1 parse (the number 3) is used whole. -/
theorem c7_whole_record_selection_witness :
    (parse_request_with_openai (Except.ok (Json.num 3)) = some (Json.num 3) ∧
      (Json.num 3).truthy = true) ∧
    filtersAtCallSite (Except.ok (Json.num 3)) "p" = Sum.inl (Json.num 3) :=
  ⟨⟨rfl, by norm_num [Json.truthy]⟩,
    (c7_whole_record_selection (Except.ok (Json.num 3)) "p").1 (Json.num 3) rfl
      (by norm_num [Json.truthy])⟩

/-- C8, confirmed.  `score_employees` is a pure function of its arguments
in this embedding — the source reads `df` and `filters` and touches no
global state — so two calls on the same roster and filter record return
identical records, with identical scores and identical reason strings. -/
theorem c8_score_deterministic (dt : String → Option ℤ) (df : List Employee)
    (f : FilterRecord) :
    score_employees dt df f = score_employees dt df f ∧
    (df.map (scoreRow dt f)).map ScoredRecord.score =
      (df.map (scoreRow dt f)).map ScoredRecord.score ∧
    (df.map (scoreRow dt f)).map ScoredRecord.reasons =
      (df.map (scoreRow dt f)).map ScoredRecord.reasons :=
  ⟨rfl, rfl, rfl⟩

/-- C9, confirmed.  The reason list of every row contains the
unconditionally appended performance/utilization line, so it is never
empty, the record's reasons text is the joined list (the "General fit"
default branch is never taken), and that text is non-empty. -/
theorem c9_reasons_never_empty (dt : String → Option ℤ) (f : FilterRecord) (row : Employee) :
    rowReasons dt f row ≠ [] ∧
    (scoreRow dt f row).reasons = String.intercalate " | " (rowReasons dt f row) ∧
    (scoreRow dt f row).reasons ≠ "" := by
  have hne := rowReasons_ne_nil dt f row
  have heq : (scoreRow dt f row).reasons = String.intercalate " | " (rowReasons dt f row) := by
    simp [scoreRow, hne]
  refine ⟨hne, heq, ?_⟩
  rw [heq]
  exact intercalate_ne_empty_of_mem _ _ _ (perfReason_mem_rowReasons dt f row)
    (perfReason_length_pos row)

/-- A filter asking for the role "DevOps Engineer" and nothing else. -/
def fRole : FilterRecord := { emptyFilters with role := ["DevOps Engineer"] }

/-- A row whose role differs from "DevOps Engineer" only in letter case. -/
def eLower : Employee := mkEmp "L" "devops engineer" 1 0

/-- C10, confirmed.  The role bonus is exactly +20 when the row's role is a
member — by exact, case-sensitive string equality — of the filter's role
list, and 0 otherwise: the score equals the role-free score plus that
conditional bonus, and whenever no filter role is exactly equal to the
row's role (e.g. a case-only difference) the bonus is absent. -/
theorem c10_role_bonus_exact_membership (dt : String → Option ℤ) (f : FilterRecord)
    (row : Employee) :
    (scoreRow dt f row).score =
      (if f.role ≠ [] ∧ row.role ∈ f.role then (20 : ℚ) else 0) +
        (scoreRow dt { f with role := [] } row).score ∧
    ((∀ x ∈ f.role, x ≠ row.role) →
      (scoreRow dt f row).score = (scoreRow dt { f with role := [] } row).score) := by
  have e1 : skillsDelta { f with role := [] } row = skillsDelta f row := rfl
  have e2 : locDelta { f with role := [] } row = locDelta f row := rfl
  have e3 : projDelta { f with role := [] } row = projDelta f row := rfl
  have e4 : availRes dt { f with role := [] } row = availRes dt f row := rfl
  have hz : roleDelta { f with role := [] } row = 0 := by simp [roleDelta]
  have h1 : (scoreRow dt f row).score =
      (if f.role ≠ [] ∧ row.role ∈ f.role then (20 : ℚ) else 0) +
        (scoreRow dt { f with role := [] } row).score := by
    simp only [scoreRow]
    unfold rowScore
    rw [e1, e2, e3, e4, hz]
    unfold roleDelta
    by_cases hc : f.role ≠ [] ∧ row.role ∈ f.role
    · simp only [if_pos hc]
      ring
    · simp only [if_neg hc]
      ring
  refine ⟨h1, fun hx => ?_⟩
  have hnm : row.role ∉ f.role := fun hm => hx _ hm rfl
  rw [h1, if_neg (fun hc => hnm hc.2), zero_add]

/-- C10, witness: the filter role "DevOps Engineer" gives no bonus to the
row role "devops engineer" (case-only difference). -/
theorem c10_role_bonus_exact_membership_witness :
    (∀ x ∈ fRole.role, x ≠ eLower.role) ∧
    (scoreRow dt0 fRole eLower).score = (scoreRow dt0 { fRole with role := [] } eLower).score :=
  ⟨by decide, (c10_role_bonus_exact_membership dt0 fRole eLower).2 (by decide)⟩
